import Mathlib

/-!
Verification development for the proximity resource locator of
hurricane-response/sms-location-bot, centred on src/lib/pods_finder.js
(the PODsFinder class and its helper functions) and the shared
convertMetersToMiles conversion of src/lib/shelters_finder.js.

Modelling conventions, shared by all definitions below:

  * JavaScript numbers are modelled as exact rationals (Rat).  Every
    arithmetic fact proved below about the meters-to-miles conversion was
    checked to coincide with IEEE-754 double arithmetic at the inputs
    involved (in particular (1/1609.344)*1609.344 rounds to exactly 1.0 and
    (1/1609.344)*1000*10 has ceiling 7 in both semantics).
  * A JavaScript object used as a string-keyed map is modelled as an
    insertion-ordered association list, List (String × _), with property
    read modelled by objGet (first matching key) and property write by
    objSet (update in place if the key exists, else append); this matches
    object semantics because the list never carries a duplicate key.
  * A JavaScript Map is likewise an association list with unique keys
    (mapGet below); Map.keys() is the list of first components.
  * Array.prototype.sort with the comparator (a, b) => d(a) - d(b) is a
    stable sort ordered by d; it is modelled by the stable insertionSort
    on the relation d a ≤ d b.
  * The exception thrown by reading a property of undefined is modelled by
    Except String, with the error value standing for the thrown TypeError.
  * console.warn and console.log are side effects without influence on the
    produced data and are not modelled.
-/

namespace SmsLocationBot

/-- Result of a successful zipcodes.lookup call: the gazetteer record for a
postal code (only the fields read by pods_finder.js are kept). -/
structure ZipInfo where
  zip : String
  latitude : Rat
  longitude : Rat
deriving DecidableEq

/-- External collaborators of PODsFinder from the zipcodes npm package:
zipcodes.lookup (None models the undefined returned for an unknown code)
and zipcodes.radius (the list of codes within a mile radius). -/
structure Gazetteer where
  lookup : String → Option ZipInfo
  radius : String → Rat → List String

/-- One raw POD record as stored in the location-data Map built by
data_updater.js: display fields, coordinates, owning zip code and the
numeric index used as deduplication identity. -/
structure PodRecord where
  pod : String
  address : String
  phone : Option String
  latitude : Rat
  longitude : Rat
  zip : String
  podIndex : Nat
deriving DecidableEq

/-- One augmented lookup zip code as produced by augmentLookupZipCodes:
the resolved code, its coordinate and its radius set. -/
structure LookupZip where
  zip : String
  latlon : Rat × Rat
  zipsInMileRadius : List String
deriving DecidableEq

/-- One augmented POD record as produced by augmentPODRecord.  The source
spreads the raw record fields into the new object; the model keeps them
under the field named base.  The distances and inRadius objects are keyed
by lookup zip code. -/
structure AugPod where
  base : PodRecord
  distances : List (String × Rat)
  inRadius : List (String × Bool)
  message : String
deriving DecidableEq

/-- Property read on a JavaScript object modelled as an association list. -/
def objGet {α : Type} (m : List (String × α)) (k : String) : Option α :=
  (m.find? (fun p => p.1 == k)).map (fun p => p.2)

/-- Property write on a JavaScript object modelled as an association list:
an existing key is updated in place, a new key is appended (insertion
order, as object key enumeration preserves it for non-numeric keys). -/
def objSet {α : Type} (m : List (String × α)) (k : String) (v : α) : List (String × α) :=
  if m.any (fun p => p.1 == k) then
    m.map (fun p => if p.1 == k then (k, v) else p)
  else
    m ++ [(k, v)]

/-- Map.prototype.get of the location-data Map. -/
def mapGet {α : Type} (m : List (String × α)) (k : String) : Option α :=
  (m.find? (fun p => p.1 == k)).map (fun p => p.2)

/-- Read of pod.distances[key]; every pipeline-produced record carries an
entry for every lookup key, the default 0 is never exercised there. -/
def AugPod.distAt (p : AugPod) (k : String) : Rat :=
  (objGet p.distances k).getD 0

/-- Read of pod.inRadius[key]; the default false models the falsiness of
the undefined read off a missing key. -/
def AugPod.inRadiusAt (p : AugPod) (k : String) : Bool :=
  (objGet p.inRadius k).getD false

/-- PODsFinder instance state: the POD location geodata Map and the mile
radius, as set by the constructor. -/
structure PODsFinder where
  locationData : List (String × List PodRecord)
  mileRadius : Rat

/-- Method zipCodesWithPODs: Array.from(this.locationData.keys()). -/
def zipCodesWithPODs (f : PODsFinder) : List String :=
  f.locationData.map (fun p => p.1)

/-- Message of the TypeError thrown by reading zipInfo.zip when
zipcodes.lookup returned undefined for an unknown code. -/
def unknownZipError : String :=
  "TypeError: Cannot read properties of undefined (reading \x27zip\x27)"

/-- Method augmentLookupZipCodes.  The source reads zipInfo.zip without a
guard, so an unresolvable code makes the map callback throw; the thrown
TypeError is modelled as the error branch, which aborts the whole call
exactly as the exception would. -/
def augmentLookupZipCodes (gaz : Gazetteer) (mileRadius : Rat) :
    List String → Except String (List LookupZip)
  | [] => Except.ok []
  | zip :: rest =>
    match gaz.lookup zip with
    | none => Except.error unknownZipError
    | some zipInfo =>
      match augmentLookupZipCodes gaz mileRadius rest with
      | Except.error e => Except.error e
      | Except.ok tail =>
        Except.ok ({ zip := zipInfo.zip
                     latlon := (zipInfo.latitude, zipInfo.longitude)
                     zipsInMileRadius := gaz.radius zipInfo.zip mileRadius } :: tail)

/-- Method computeFoundPODs: for each lookup, push every known code whose
indexOf in the radius set is nonnegative. -/
def computeFoundPODs (lookupZipCodes : List LookupZip) (knownZipCodes : List String) :
    List String :=
  lookupZipCodes.flatMap (fun z =>
    knownZipCodes.filter (fun known => z.zipsInMileRadius.contains known))

/-- Method augmentPODRecord: attach per-lookup distances, per-lookup
in-radius flags and the display message fragment.  The distances and
inRadius objects are written key by key in lookup order, matching the
for-in loop of the source; the phone line is appended only when phone is
present and truthy (a present empty string is falsy in JavaScript). -/
def augmentPODRecord (geoDist : Rat × Rat → Rat × Rat → Rat)
    (podRecord : PodRecord) (lookupZipCodes : List LookupZip) : AugPod :=
  let podLatLon := (podRecord.latitude, podRecord.longitude)
  let podDistancesFromLookupZips := lookupZipCodes.map (fun zip => geoDist zip.latlon podLatLon)
  let zipInMileRadiusFromPOD :=
    lookupZipCodes.map (fun zip => zip.zipsInMileRadius.contains podRecord.zip)
  let distances :=
    ((lookupZipCodes.map (fun z => z.zip)).zip podDistancesFromLookupZips).foldl
      (fun m kv => objSet m kv.1 kv.2) []
  let inRadius :=
    ((lookupZipCodes.map (fun z => z.zip)).zip zipInMileRadiusFromPOD).foldl
      (fun m kv => objSet m kv.1 kv.2) []
  { base := podRecord
    distances := distances
    inRadius := inRadius
    message := "\n\n" ++ podRecord.pod ++ "\n" ++ podRecord.address ++
      (match podRecord.phone with
       | some p => if p = "" then "" else "\n" ++ p
       | none => "") }

/-- Method collectPODs: expand each found candidate code into its stored
records, augmented; a code missing from the Map (get returns undefined,
which is falsy) is skipped after a console.warn and the loop continues. -/
def collectPODs (geoDist : Rat × Rat → Rat × Rat → Rat) (f : PODsFinder)
    (foundPODs : List String) (lookupZipCodes : List LookupZip) : List AugPod :=
  foundPODs.flatMap (fun zip =>
    match mapGet f.locationData zip with
    | some loc => loc.map (fun podRecord => augmentPODRecord geoDist podRecord lookupZipCodes)
    | none => [])

/-- Method getInRadiusPODs: filter to the records flagged in radius for the
lookup key. -/
def getInRadiusPODs (pods : List AugPod) (lookupZip : String) : List AugPod :=
  pods.filter (fun sh => sh.inRadiusAt lookupZip)

/-- Method sortPODsByDistance: stable sort ascending by the distance stored
for the lookup key (Array.prototype.sort with the subtraction comparator). -/
def sortPODsByDistance (pods : List AugPod) (lookupZip : String) : List AugPod :=
  pods.insertionSort (fun a b => a.distAt lookupZip ≤ b.distAt lookupZip)

/-- Method truncatePODList: slice(0, amount). -/
def truncatePODList (pods : List AugPod) (amount : Nat) : List AugPod :=
  pods.take amount

/-- Method sortedPODListsByLookupZip: build the results object, one
filtered, sorted and truncated list per lookup zip code. -/
def sortedPODListsByLookupZip (pods : List AugPod) (lookups : List String)
    (podsPerLookup : Nat) : List (String × List AugPod) :=
  lookups.foldl
    (fun results zip =>
      objSet results zip
        (truncatePODList (sortPODsByDistance (getInRadiusPODs pods zip) zip) podsPerLookup))
    []

/-- Constant metersToMiles of buildMessages and convertMetersToMiles:
1.0 / 1609.344. -/
def metersToMilesQ : Rat := 1 / (1609344 / 1000)

/-- Method convertMetersToMiles of shelters_finder.js, with the same two
lines inlined in buildMessages of pods_finder.js: convert to miles, round
up to one decimal place under one mile, else round up to a whole mile. -/
def convertMetersToMiles (meters : Rat) : Rat :=
  let dist := metersToMilesQ * meters
  if dist < 1 then ((⌈dist * 10⌉ : Int) : Rat) / 10 else ((⌈dist⌉ : Int) : Rat)

/-- Rendering of the rounded mile count in the template.  The displayed
number is always a whole number (the under-one-mile branch prints no
number), so only the integer rendering is ever exercised. -/
def jsNumToString (q : Rat) : String :=
  if q.den = 1 then toString q.num else toString q.num ++ "/" ++ toString q.den

/-- One message fragment of buildMessages: the precomputed record fragment
followed by the rounded distance suffix. -/
def podDistanceLine (key : String) (pod : AugPod) : String :=
  let dist := convertMetersToMiles (pod.distAt key)
  pod.message ++ "\n" ++
    (if dist < 1 then "Under 1" else "About " ++ jsNumToString dist) ++ "mi away"

/-- Header opening the segment list of one lookup zip code. -/
def headerFor (key : String) (podsSort : List AugPod) : String :=
  "Found " ++ toString podsSort.length ++ " food/water distribution points near " ++
    key ++ ":"

/-- Inner loop of buildMessages over one ranked list: accumulate fragments
into resultString, flushing it whenever appending the next fragment would
push the segment over 800 characters, and flush the final nonempty rest. -/
def buildLoop (key : String) : List AugPod → String → List String
  | [], resultString => if resultString.length > 0 then [resultString] else []
  | pod :: rest, resultString =>
    let msg := podDistanceLine key pod
    if (resultString ++ msg).length > 800 then
      resultString :: buildLoop key rest msg
    else
      buildLoop key rest (resultString ++ msg)

/-- Method buildMessages: per key, start from the Found-count header and
run the accumulation loop; contributions of distinct keys are contiguous
in the output.  The for-in enumeration of the results object visits
numeric-string keys in ascending numeric order; the model keeps the
insertion order instead, which permutes whole per-key blocks only and is
irrelevant to every per-key property below. -/
def buildMessages (sorts : List (String × List AugPod)) : List String :=
  sorts.flatMap (fun kv => buildLoop kv.1 kv.2 (headerFor kv.1 kv.2))

/-- Largest fragment length occurring in a batcher input, the quantity the
segment-length budget of the specification is stated against. -/
def maxFragLen (sorts : List (String × List AugPod)) : Nat :=
  sorts.foldl (fun m kv => kv.2.foldl (fun m2 p => max m2 (podDistanceLine kv.1 p).length) m) 0

/-- Helper function _dedupeArray, generic part: the filter keeps an element
exactly when no later element of the array being filtered has the same key
value (slice(i+1).findIndex(...) returning -1).  Key values are primitives
(the call sites use the numeric record index), so the strict equality of
the source is value equality. -/
def jsKeepLast {α κ : Type} [DecidableEq κ] (key : α → κ) : List α → List α
  | [] => []
  | x :: xs =>
    if key x ∈ xs.map key then jsKeepLast key xs else x :: jsKeepLast key xs

/-- Helper function _dedupeArray of pods_finder.js: deep-copy the array
(the copy of an immutable value is the value itself, proved separately on
the JavaScript value model), reverse it, keep the last occurrence of every
key value in the reversed array, and reverse back. -/
def _dedupeArray {α κ : Type} [DecidableEq κ] (arr : List α) (key : α → κ) : List α :=
  (jsKeepLast key arr.reverse).reverse

/-- Entry point findPODs: empty-query short circuit, lookup augmentation
(which can throw, modelled by the error branch), global no-candidates
fallback, then collect, dedupe by podIndex, rank per lookup zip with three
results per lookup, and batch into messages. -/
def findPODs (gaz : Gazetteer) (geoDist : Rat × Rat → Rat × Rat → Rat)
    (f : PODsFinder) (sentZipCodes : List String) : Except String (List String) :=
  if sentZipCodes.length = 0 then
    Except.ok ["Sorry, I couldn\x27t find any ZIP codes in your text message. Please try again."]
  else
    let knownZipCodes := zipCodesWithPODs f
    match augmentLookupZipCodes gaz f.mileRadius sentZipCodes with
    | Except.error e => Except.error e
    | Except.ok lookupZipCodes =>
      let foundPODs := computeFoundPODs lookupZipCodes knownZipCodes
      if foundPODs.length = 0 then
        Except.ok ["Sorry, I don\x27t know about any food and water distribution points near " ++
          String.intercalate " or " sentZipCodes ++ ". Please try again later!"]
      else
        let podsArray := collectPODs geoDist f foundPODs lookupZipCodes
        let podsArray := _dedupeArray podsArray (fun p => p.base.podIndex)
        let sorts := sortedPODListsByLookupZip podsArray
          (lookupZipCodes.map (fun z => z.zip)) 3
        Except.ok (buildMessages sorts)

/-! JavaScript value model for the helper function _deepCopyArray, which is
defined on arbitrary nested arrays and objects. -/

/-- Fragment of JavaScript values reachable by _deepCopyArray: null,
primitives, arrays and plain objects (functions do not occur in the
location data). -/
inductive Val : Type where
  | null : Val
  | bool : Bool → Val
  | num : Rat → Val
  | str : String → Val
  | arr : List Val → Val
  | obj : List (String × Val) → Val

mutual

/-- Helper function _deepCopyArray of pods_finder.js: arrays copy to
arrays, null copies to null, any other non-object input produces an empty
object (the for-in loop of the source enumerates no own key on a
primitive), and each own field is copied recursively exactly when typeof
reports object (which includes null, arrays and objects). -/
def _deepCopyArray : Val → Val
  | Val.null => Val.null
  | Val.bool _ => Val.obj []
  | Val.num _ => Val.obj []
  | Val.str _ => Val.obj []
  | Val.arr es => Val.arr (copyElems es)
  | Val.obj fs => Val.obj (copyFields fs)

/-- Field copy over the elements of an array: primitives are copied by
value, object-typed values recursively. -/
def copyElems : List Val → List Val
  | [] => []
  | Val.bool b :: vs => Val.bool b :: copyElems vs
  | Val.num q :: vs => Val.num q :: copyElems vs
  | Val.str s :: vs => Val.str s :: copyElems vs
  | v :: vs => _deepCopyArray v :: copyElems vs

/-- Field copy over the fields of an object: primitives are copied by
value, object-typed values recursively. -/
def copyFields : List (String × Val) → List (String × Val)
  | [] => []
  | (k, Val.bool b) :: fs => (k, Val.bool b) :: copyFields fs
  | (k, Val.num q) :: fs => (k, Val.num q) :: copyFields fs
  | (k, Val.str s) :: fs => (k, Val.str s) :: copyFields fs
  | (k, v) :: fs => (k, _deepCopyArray v) :: copyFields fs

end

/-- Strict equality on modelled JavaScript values: value equality on
primitives; two composite values reached at distinct positions of a
freshly deep-copied array are distinct references, so strict equality on
them is false. -/
def jsStrictEq : Val → Val → Bool
  | Val.null, Val.null => true
  | Val.bool a, Val.bool b => a == b
  | Val.num a, Val.num b => a == b
  | Val.str a, Val.str b => a == b
  | _, _ => false

/-- Property read e[key] on a modelled record value; a missing key reads as
null, standing for undefined (the two are conflated, which is harmless
here because strict equality treats them alike). -/
def valGet (v : Val) (k : String) : Val :=
  match v with
  | Val.obj fs => ((fs.find? (fun p => p.1 == k)).map (fun p => p.2)).getD Val.null
  | _ => Val.null

/-- The keep-last filter of _dedupeArray on raw JavaScript record values. -/
def jsKeepLastVal (key : String) : List Val → List Val
  | [] => []
  | x :: xs =>
    if xs.any (fun o => jsStrictEq (valGet o key) (valGet x key)) then jsKeepLastVal key xs
    else x :: jsKeepLastVal key xs

/-- Helper function _dedupeArray on raw JavaScript values, with the frame
made explicit: the first component is the returned array, the second is
the value held by the caller for the input array after the call.  Every
mutating operation of the source (the two in-place reversals) is applied
to the deep copy or to the fresh filter result, never to the input, so the
input cell is returned as received. -/
def _dedupeArrayVal (arr : List Val) (key : String) : List Val × List Val :=
  let copied :=
    match _deepCopyArray (Val.arr arr) with
    | Val.arr es => es
    | _ => []
  ((jsKeepLastVal key copied.reverse).reverse, arr)

/-! Concrete sample data used by witness and counterexample theorems. -/

/-- Sample gazetteer entry for 70118. -/
def zipInfo70118 : ZipInfo := { zip := "70118", latitude := 30, longitude := -90 }

/-- Sample gazetteer resolving only 70118; every other code is unknown. -/
def gaz0 : Gazetteer :=
  { lookup := fun z => if z == "70118" then some zipInfo70118 else none
    radius := fun _ _ => ["70118"] }

/-- Sample geodesic distance collaborator. -/
def geoDist0 : Rat × Rat → Rat × Rat → Rat := fun _ _ => 0

/-- Sample raw record stored under 70118. -/
def rec70118 : PodRecord :=
  { pod := "POD ONE", address := "1 Main St", phone := none, latitude := 30,
    longitude := -90, zip := "70118", podIndex := 1 }

/-- Sample finder with one record indexed under 70118. -/
def finder0 : PODsFinder := { locationData := [("70118", [rec70118])], mileRadius := 10 }

/-- First element of a duplicate-identity pair: same podIndex as
dupRecLast, different display name. -/
def dupRecFirst : PodRecord :=
  { pod := "FIRST", address := "1 A St", phone := none, latitude := 0,
    longitude := 0, zip := "70118", podIndex := 7 }

/-- Second element of a duplicate-identity pair. -/
def dupRecLast : PodRecord :=
  { pod := "LAST", address := "2 B St", phone := none, latitude := 0,
    longitude := 0, zip := "70118", podIndex := 7 }

/-- Sample augmented record five meters from lookup 70118. -/
def wPodA : AugPod :=
  { base := { pod := "A", address := "1 A St", phone := none, latitude := 0,
              longitude := 0, zip := "70118", podIndex := 1 }
    distances := [("70118", 5)], inRadius := [("70118", true)], message := "mA" }

/-- Sample augmented record three meters from lookup 70118. -/
def wPodB : AugPod :=
  { base := { pod := "B", address := "2 B St", phone := none, latitude := 0,
              longitude := 0, zip := "70118", podIndex := 2 }
    distances := [("70118", 3)], inRadius := [("70118", true)], message := "mB" }

/-- Sample augmented record stored exactly one mile (1609.344 meters) from
lookup 70118. -/
def podAtOneMile : AugPod :=
  { base := rec70118, distances := [("70118", 1609344 / 1000)]
    inRadius := [("70118", true)], message := "\n\nPOD ONE\n1 Main St" }

/-- Sample augmented record stored 1000 meters from lookup 70118. -/
def podAtOneKm : AugPod :=
  { base := rec70118, distances := [("70118", 1000)]
    inRadius := [("70118", true)], message := "\n\nPOD ONE\n1 Main St" }

/-- Batcher input with a single lookup key and no ranked records. -/
def sampleSorts : List (String × List AugPod) := [("70118", [])]

/-- Pathological lookup key of 800 characters, driving the header past the
800-character budget. -/
def overlongKey : String := String.mk (List.replicate 800 'a')

/-- Batcher input whose only header exceeds the budget by itself. -/
def overlongSorts : List (String × List AugPod) := [(overlongKey, [])]

/-! Lemmas about the keep-last filter underlying _dedupeArray. -/

/-- The filter pass of _dedupeArray returns a sublist of its input. -/
theorem jsKeepLast_sublist {α κ : Type} [DecidableEq κ] (key : α → κ) :
    ∀ l : List α, List.Sublist (jsKeepLast key l) l
  | [] => List.Sublist.refl []
  | x :: xs => by
    unfold jsKeepLast
    by_cases h : key x ∈ xs.map key
    · rw [if_pos h]
      exact (jsKeepLast_sublist key xs).cons x
    · rw [if_neg h]
      exact (jsKeepLast_sublist key xs).cons₂ x

/-- Finding the first match equals taking the head of the filter. -/
theorem find?_eq_head?_filter {α : Type} (p : α → Bool) :
    ∀ l : List α, l.find? p = (l.filter p).head?
  | [] => rfl
  | x :: xs => by
    by_cases h : p x
    · rw [List.find?_cons_of_pos _ h, List.filter_cons_of_pos h, List.head?_cons]
    · rw [List.find?_cons_of_neg _ h, List.filter_cons_of_neg h,
          find?_eq_head?_filter p xs]

/-- Reversing a list of at most one element changes nothing. -/
theorem option_toList_reverse {α : Type} (o : Option α) : o.toList.reverse = o.toList := by
  cases o <;> rfl

/-- Restricted to any one key value, the keep-last filter keeps exactly the
last element carrying that value. -/
theorem jsKeepLast_filter_eq {α κ : Type} [DecidableEq κ] (key : α → κ) (k : κ) :
    ∀ l : List α,
      (jsKeepLast key l).filter (fun x => key x = k) =
        ((l.filter (fun x => key x = k)).getLast?).toList
  | [] => rfl
  | x :: xs => by
    unfold jsKeepLast
    by_cases hmem : key x ∈ xs.map key
    · rw [if_pos hmem, jsKeepLast_filter_eq key k xs]
      by_cases hk : key x = k
      · rw [List.filter_cons_of_pos (by simpa using hk)]
        obtain ⟨y, hy, hky⟩ := List.mem_map.mp hmem
        have hyf : y ∈ xs.filter (fun x => key x = k) :=
          List.mem_filter.mpr ⟨hy, by simpa using hky.trans hk⟩
        obtain ⟨t, ts, ht⟩ : ∃ t ts, xs.filter (fun x => key x = k) = t :: ts := by
          cases hxf : xs.filter (fun x => key x = k) with
          | nil => rw [hxf] at hyf; cases hyf
          | cons t ts => exact ⟨t, ts, rfl⟩
        rw [ht, List.getLast?_cons_cons]
      · rw [List.filter_cons_of_neg (by simpa using hk)]
    · rw [if_neg hmem]
      by_cases hk : key x = k
      · have hxf : xs.filter (fun x => key x = k) = [] := by
          rw [List.filter_eq_nil_iff]
          intro a ha hak
          exact hmem (List.mem_map.mpr ⟨a, ha, by
            have : key a = k := by simpa using hak
            rw [this, hk]⟩)
        have hjf : (jsKeepLast key xs).filter (fun x => key x = k) = [] :=
          List.sublist_nil.mp (hxf ▸ List.Sublist.filter _ (jsKeepLast_sublist key xs))
        rw [List.filter_cons_of_pos (by simpa using hk), hjf,
            List.filter_cons_of_pos (by simpa using hk), hxf]
        rfl
      · rw [List.filter_cons_of_neg (by simpa using hk),
            List.filter_cons_of_neg (by simpa using hk)]
        exact jsKeepLast_filter_eq key k xs

/-- The key values surviving the keep-last filter are pairwise distinct. -/
theorem jsKeepLast_keys_nodup {α κ : Type} [DecidableEq κ] (key : α → κ) :
    ∀ l : List α, ((jsKeepLast key l).map key).Nodup
  | [] => List.nodup_nil
  | x :: xs => by
    unfold jsKeepLast
    by_cases h : key x ∈ xs.map key
    · rw [if_pos h]
      exact jsKeepLast_keys_nodup key xs
    · rw [if_neg h, List.map_cons]
      exact List.nodup_cons.mpr
        ⟨fun hc => h ((List.Sublist.map key (jsKeepLast_sublist key xs)).mem hc),
         jsKeepLast_keys_nodup key xs⟩

/-- On a list whose key values are already pairwise distinct, the keep-last
filter keeps everything. -/
theorem jsKeepLast_of_nodup {α κ : Type} [DecidableEq κ] (key : α → κ) :
    ∀ l : List α, (l.map key).Nodup → jsKeepLast key l = l
  | [], _ => rfl
  | x :: xs, h => by
    rw [List.map_cons, List.nodup_cons] at h
    unfold jsKeepLast
    rw [if_neg h.1, jsKeepLast_of_nodup key xs h.2]

/-- Claim C2 counterexample: on two records sharing the identity value 7,
_dedupeArray keeps the occurrence that appeared first in the original
ordering, not the last one asserted by the claim. -/
theorem dedupe_keeps_first_not_last_cex :
    _dedupeArray [dupRecFirst, dupRecLast] (fun r => r.podIndex) = [dupRecFirst] ∧
    _dedupeArray [dupRecFirst, dupRecLast] (fun r => r.podIndex) ≠ [dupRecLast] := by
  constructor
  · decide
  · decide

/-- Claim C2 (amended): for every finite list of records and every identity
key, among the records sharing any one key value exactly the occurrence
that appeared first in the original ordering survives (the filter on that
key value of the output is the singleton of find?), and the output is a
sublist of the input, so original relative order is preserved among
survivors. -/
theorem dedupe_survivor_is_first {α κ : Type} [DecidableEq κ]
    (arr : List α) (key : α → κ) (k : κ) :
    (_dedupeArray arr key).filter (fun x => key x = k) =
      (arr.find? (fun x => key x = k)).toList ∧
    List.Sublist (_dedupeArray arr key) arr := by
  constructor
  · unfold _dedupeArray
    rw [List.filter_reverse, jsKeepLast_filter_eq, List.filter_reverse,
        List.getLast?_reverse, option_toList_reverse, find?_eq_head?_filter]
  · unfold _dedupeArray
    have h := (jsKeepLast_sublist key arr.reverse).reverse
    rwa [List.reverse_reverse] at h

/-- Claim C8: the deduplication helper is idempotent, its output is a fixed
point. -/
theorem dedupe_idempotent {α κ : Type} [DecidableEq κ] (arr : List α) (key : α → κ) :
    _dedupeArray (_dedupeArray arr key) key = _dedupeArray arr key := by
  unfold _dedupeArray
  rw [List.reverse_reverse, jsKeepLast_of_nodup key _ (jsKeepLast_keys_nodup key arr.reverse)]

/-! Identity of the deep copy on the JavaScript value model. -/

mutual

/-- Deep-copying an array value reproduces it. -/
theorem deepCopyArray_arr_id : ∀ es : List Val, _deepCopyArray (Val.arr es) = Val.arr es
  | es => by
    rw [_deepCopyArray, copyElems_id es]

/-- Deep-copying an object value reproduces it. -/
theorem deepCopyArray_obj_id : ∀ fs : List (String × Val), _deepCopyArray (Val.obj fs) = Val.obj fs
  | fs => by
    rw [_deepCopyArray, copyFields_id fs]

/-- Element-wise copy of an array reproduces the element list. -/
theorem copyElems_id : ∀ es : List Val, copyElems es = es
  | [] => by rw [copyElems]
  | Val.null :: vs => by simp [copyElems, _deepCopyArray, copyElems_id vs]
  | Val.bool b :: vs => by rw [copyElems, copyElems_id vs]
  | Val.num q :: vs => by rw [copyElems, copyElems_id vs]
  | Val.str s :: vs => by rw [copyElems, copyElems_id vs]
  | Val.arr es :: vs => by simp [copyElems, copyElems_id vs, deepCopyArray_arr_id es]
  | Val.obj fs :: vs => by simp [copyElems, copyElems_id vs, deepCopyArray_obj_id fs]

/-- Field-wise copy of an object reproduces the field list. -/
theorem copyFields_id : ∀ fs : List (String × Val), copyFields fs = fs
  | [] => by rw [copyFields]
  | (k, Val.null) :: gs => by simp [copyFields, _deepCopyArray, copyFields_id gs]
  | (k, Val.bool b) :: gs => by rw [copyFields, copyFields_id gs]
  | (k, Val.num q) :: gs => by rw [copyFields, copyFields_id gs]
  | (k, Val.str s) :: gs => by rw [copyFields, copyFields_id gs]
  | (k, Val.arr es) :: gs => by simp [copyFields, copyFields_id gs, deepCopyArray_arr_id es]
  | (k, Val.obj fs) :: gs => by simp [copyFields, copyFields_id gs, deepCopyArray_obj_id fs]

end

/-- Claim C9: the deduplication helper never mutates its input.  The frame
component returned by the explicit-state model is the untouched input
array, the deep copy of the input array value is equal to that value, and
the returned array is therefore the one computed from the input value with
the in-place reversals acting on the copy only. -/
theorem dedupe_preserves_input (arr : List Val) (key : String) :
    (_dedupeArrayVal arr key).2 = arr ∧
    _deepCopyArray (Val.arr arr) = Val.arr arr ∧
    (_dedupeArrayVal arr key).1 = (jsKeepLastVal key arr.reverse).reverse := by
  refine ⟨rfl, deepCopyArray_arr_id arr, ?_⟩
  unfold _dedupeArrayVal
  rw [deepCopyArray_arr_id arr]

/-- Claim C10: collectPODs is total on missing index keys.  It equals the
expansion of exactly those candidate codes present as keys of the
location-data Map, each expanded to its augmented records; a candidate
whose get returns undefined contributes nothing and the traversal
continues (the console.warn on that branch is a pure side effect). -/
theorem collectPODs_skips_missing (geoDist : Rat × Rat → Rat × Rat → Rat) (f : PODsFinder)
    (lookupZipCodes : List LookupZip) (foundPODs : List String) :
    collectPODs geoDist f foundPODs lookupZipCodes =
      (foundPODs.filter (fun z => (mapGet f.locationData z).isSome)).flatMap
        (fun z => ((mapGet f.locationData z).getD []).map
          (fun podRecord => augmentPODRecord geoDist podRecord lookupZipCodes)) := by
  induction foundPODs with
  | nil => rfl
  | cons z zs ih =>
    unfold collectPODs at ih ⊢
    rw [List.flatMap_cons, List.filter_cons]
    cases h : mapGet f.locationData z with
    | none => simpa [h] using ih
    | some loc => simpa [h] using congrArg (loc.map
        (fun podRecord => augmentPODRecord geoDist podRecord lookupZipCodes) ++ ·) ih

/-- Claim C7: the entry point called with an empty query list returns the
single fixed apology segment for every dataset, radius, gazetteer and
distance collaborator, short-circuiting before any other step. -/
theorem findPODs_empty_query (gaz : Gazetteer) (geoDist : Rat × Rat → Rat × Rat → Rat)
    (f : PODsFinder) :
    findPODs gaz geoDist f [] =
      Except.ok
        ["Sorry, I couldn\x27t find any ZIP codes in your text message. Please try again."] :=
  rfl

/-- Unresolvable codes make the lookup augmentation throw: if any queried
code resolves to none, the whole call returns the TypeError. -/
theorem augmentLookupZipCodes_unknown (gaz : Gazetteer) (mileRadius : Rat) :
    ∀ (zips : List String) (z : String), z ∈ zips → gaz.lookup z = none →
      augmentLookupZipCodes gaz mileRadius zips = Except.error unknownZipError
  | [], z, hz, _ => absurd hz (List.not_mem_nil z)
  | zip :: rest, z, hz, hnone => by
    unfold augmentLookupZipCodes
    rcases List.mem_cons.mp hz with h | h
    · subst h
      rw [hnone]
    · cases hg : gaz.lookup zip with
      | none => rfl
      | some zi =>
        rw [augmentLookupZipCodes_unknown gaz mileRadius rest z h hnone]

/-- Claim C4 (amended): an unresolvable query postal code is not skipped.
The entry point dereferences the failed lookup, so the whole locate call
aborts with the TypeError; in the deployed system unknown codes are kept
away from the locator by the upstream zipcode extractor instead. -/
theorem findPODs_unknown_zip_aborts (gaz : Gazetteer)
    (geoDist : Rat × Rat → Rat × Rat → Rat) (f : PODsFinder)
    (zips : List String) (z : String) (hz : z ∈ zips) (hnone : gaz.lookup z = none) :
    findPODs gaz geoDist f zips = Except.error unknownZipError := by
  unfold findPODs
  rw [if_neg (by
    intro hlen
    rw [List.length_eq_zero] at hlen
    subst hlen
    exact absurd hz (List.not_mem_nil z))]
  rw [augmentLookupZipCodes_unknown gaz f.mileRadius zips z hz hnone]

/-- Witness for the amended claim C4 at a concrete input: 00000 is queried,
is a member of the query list and is unknown to the gazetteer, and the
call aborts. -/
theorem findPODs_unknown_zip_aborts_witness :
    ("00000" ∈ (["00000", "70118"] : List String)) ∧
    gaz0.lookup "00000" = none ∧
    findPODs gaz0 geoDist0 finder0 ["00000", "70118"] = Except.error unknownZipError :=
  ⟨by decide, by decide,
   findPODs_unknown_zip_aborts gaz0 geoDist0 finder0 ["00000", "70118"] "00000"
     (by decide) (by decide)⟩

/-- Claim C4 counterexample: with 00000 unresolvable and 70118 resolvable
and indexed, the locate call aborts with the TypeError instead of skipping
00000 and answering for 70118. -/
theorem findPODs_unknown_zip_cex :
    findPODs gaz0 geoDist0 finder0 ["00000", "70118"] = Except.error unknownZipError :=
  rfl

/-- Claim C3 counterexample: for a query postal code whose ranked result is
empty, the batcher emits the zero-count header, not the claimed sorry
fallback mentioning that code. -/
theorem buildMessages_no_sorry_fallback_cex :
    buildMessages [("90210", [])] =
      ["Found 0 food/water distribution points near 90210:"] ∧
    buildMessages [("90210", [])] ≠
      ["Sorry, I don\x27t know about any resources near 90210. Please try again later!"] := by
  constructor
  · decide
  · decide

/-- Claim C3 (amended): for a query postal code whose ranked result is
empty, the batcher emits exactly one segment for that code, the zero-count
header mentioning it; the sorry fallback exists only in findPODs, worded
over all query codes joined by or, and only when no candidate code is
found for any query. -/
theorem buildMessages_empty_result_header (key : String)
    (s₁ s₂ : List (String × List AugPod)) :
    buildMessages (s₁ ++ (key, []) :: s₂) =
      buildMessages s₁ ++ headerFor key [] :: buildMessages s₂ := by
  unfold buildMessages
  rw [List.flatMap_append, List.flatMap_cons]
  have h : buildLoop key [] (headerFor key []) = [headerFor key []] := by
    unfold buildLoop
    rw [if_pos]
    unfold headerFor
    simp [String.length_append]
    exact Or.inr (by decide)
  rw [h]
  rfl

/-- Bound on every segment the accumulation loop emits: any bound at least
800 that also bounds the incoming accumulator and every fragment of the
remaining records bounds every emitted segment. -/
theorem buildLoop_length_bound (key : String) (B : Nat) (hB : 800 ≤ B) :
    ∀ (pods : List AugPod) (resultString : String),
      resultString.length ≤ B →
      (∀ p ∈ pods, (podDistanceLine key p).length ≤ B) →
      ∀ s ∈ buildLoop key pods resultString, s.length ≤ B
  | [], rs => by
    intro hrs _ s hs
    unfold buildLoop at hs
    by_cases h : rs.length > 0
    · rw [if_pos h] at hs
      rw [List.mem_singleton.mp hs]
      exact hrs
    · rw [if_neg h] at hs
      exact absurd hs (List.not_mem_nil s)
  | pod :: rest, rs => by
    intro hrs hf s hs
    unfold buildLoop at hs
    by_cases hover : (rs ++ podDistanceLine key pod).length > 800
    · rw [if_pos hover] at hs
      rcases List.mem_cons.mp hs with h | h
      · rw [h]; exact hrs
      · exact buildLoop_length_bound key B hB rest (podDistanceLine key pod)
          (hf pod (List.mem_cons_self pod rest))
          (fun p hp => hf p (List.mem_cons_of_mem pod hp)) s h
    · rw [if_neg hover] at hs
      exact buildLoop_length_bound key B hB rest (rs ++ podDistanceLine key pod)
        (le_trans (Nat.le_of_not_lt hover) hB)
        (fun p hp => hf p (List.mem_cons_of_mem pod hp)) s hs

/-- Claim C5 (amended): every bound at least 800 characters that also
bounds each header and each individual fragment bounds every emitted
segment; equivalently no emitted segment exceeds the maximum of the
budget, the header lengths and the single-fragment lengths.  The original
800-plus-one-fragment phrasing additionally requires the header itself to
fit the budget, which an adversarial lookup key defeats. -/
theorem buildMessages_segment_bound (sorts : List (String × List AugPod)) (B : Nat)
    (hB : 800 ≤ B)
    (hheader : ∀ kv ∈ sorts, (headerFor kv.1 kv.2).length ≤ B)
    (hfrag : ∀ kv ∈ sorts, ∀ p ∈ kv.2, (podDistanceLine kv.1 p).length ≤ B) :
    ∀ s ∈ buildMessages sorts, s.length ≤ B := by
  intro s hs
  unfold buildMessages at hs
  rcases List.mem_flatMap.mp hs with ⟨kv, hkv, hsk⟩
  exact buildLoop_length_bound kv.1 B hB kv.2 (headerFor kv.1 kv.2)
    (hheader kv hkv) (hfrag kv hkv) s hsk

/-- Witness for the amended claim C5 at a concrete input: the bound 800
covers the single header and the (absent) fragments, so every emitted
segment stays within 800 characters. -/
theorem buildMessages_segment_bound_witness :
    (800 ≤ 800) ∧
    (∀ kv ∈ sampleSorts, (headerFor kv.1 kv.2).length ≤ 800) ∧
    (∀ kv ∈ sampleSorts, ∀ p ∈ kv.2, (podDistanceLine kv.1 p).length ≤ 800) ∧
    (∀ s ∈ buildMessages sampleSorts, s.length ≤ 800) :=
  ⟨by decide, by decide, by decide,
   buildMessages_segment_bound sampleSorts 800 (by decide) (by decide) (by decide)⟩

set_option maxRecDepth 40000 in
/-- Claim C5 counterexample: with an 800-character lookup key the header
alone is an emitted segment of 845 characters, exceeding the 800-character
budget plus the length of any resource fragment of the input (there is
none, and the bound fails by 45 characters). -/
theorem buildMessages_segment_bound_cex :
    headerFor overlongKey [] ∈ buildMessages overlongSorts ∧
    800 + maxFragLen overlongSorts < (headerFor overlongKey []).length := by
  constructor
  · decide
  · decide

/-- Property preservation through a JavaScript object write: if every
entry of the object satisfies P and the written entry does, every entry of
the updated object does. -/
theorem objSet_invariant {α : Type} (P : String × α → Prop) (m : List (String × α))
    (k : String) (v : α) (hm : ∀ p ∈ m, P p) (hv : P (k, v)) :
    ∀ p ∈ objSet m k v, P p := by
  unfold objSet
  by_cases h : m.any (fun p => p.1 == k)
  · rw [if_pos h]
    intro p hp
    rcases List.mem_map.mp hp with ⟨q, hq, hpq⟩
    by_cases hqk : q.1 == k
    · rw [if_pos hqk] at hpq
      exact hpq ▸ hv
    · rw [if_neg hqk] at hpq
      rw [← hpq]
      exact hm q hq
  · rw [if_neg h]
    intro p hp
    rcases List.mem_append.mp hp with h1 | h1
    · exact hm p h1
    · rw [List.mem_singleton.mp h1]
      exact hv

/-- Every entry of the results object built by sortedPODListsByLookupZip
carries the filtered, sorted and truncated list for its own key. -/
theorem mem_sortedPODLists (pods : List AugPod) (n : Nat) :
    ∀ (lookups : List String) (init : List (String × List AugPod)),
      (∀ pr ∈ init,
        pr.2 = truncatePODList (sortPODsByDistance (getInRadiusPODs pods pr.1) pr.1) n) →
      ∀ pr ∈ lookups.foldl
          (fun results zip =>
            objSet results zip
              (truncatePODList (sortPODsByDistance (getInRadiusPODs pods zip) zip) n))
          init,
        pr.2 = truncatePODList (sortPODsByDistance (getInRadiusPODs pods pr.1) pr.1) n
  | [], init, hinit => hinit
  | zip :: rest, init, hinit => by
    rw [List.foldl_cons]
    exact mem_sortedPODLists pods n rest _
      (objSet_invariant _ init zip _ hinit rfl)

/-- Claim C1: each per-query result list of the ranker and truncator
consists of in-radius records drawn from the input, is ordered by
non-decreasing stored distance for that query, has length exactly the
minimum of the per-query maximum and the number of in-radius records, and
is a permutation of all the in-radius records whenever they fit within the
maximum. -/
theorem sortedPODLists_spec (pods : List AugPod) (lookups : List String) (n : Nat)
    (pr : String × List AugPod)
    (hpr : pr ∈ sortedPODListsByLookupZip pods lookups n) :
    (∀ r ∈ pr.2, r.inRadiusAt pr.1 = true ∧ r ∈ pods) ∧
    pr.2.Pairwise (fun a b => a.distAt pr.1 ≤ b.distAt pr.1) ∧
    pr.2.length = min n (getInRadiusPODs pods pr.1).length ∧
    ((getInRadiusPODs pods pr.1).length ≤ n →
      List.Perm pr.2 (getInRadiusPODs pods pr.1)) := by
  have hval : pr.2 = truncatePODList (sortPODsByDistance (getInRadiusPODs pods pr.1) pr.1) n :=
    mem_sortedPODLists pods n lookups [] (fun p hp => absurd hp (List.not_mem_nil p)) pr hpr
  have hperm :
      List.Perm (sortPODsByDistance (getInRadiusPODs pods pr.1) pr.1)
        (getInRadiusPODs pods pr.1) :=
    List.perm_insertionSort _ _
  refine ⟨?_, ?_, ?_, ?_⟩
  · intro x hx
    rw [hval] at hx
    have hx1 : x ∈ sortPODsByDistance (getInRadiusPODs pods pr.1) pr.1 :=
      (List.take_sublist n _).mem hx
    have hx2 : x ∈ getInRadiusPODs pods pr.1 := hperm.subset hx1
    unfold getInRadiusPODs at hx2
    exact ⟨(List.mem_filter.mp hx2).2, (List.mem_filter.mp hx2).1⟩
  · rw [hval]
    unfold truncatePODList
    refine List.Pairwise.sublist (List.take_sublist n _) ?_
    unfold sortPODsByDistance
    letI : IsTotal AugPod (fun a b : AugPod => a.distAt pr.1 ≤ b.distAt pr.1) :=
      ⟨fun a b => le_total _ _⟩
    letI : IsTrans AugPod (fun a b : AugPod => a.distAt pr.1 ≤ b.distAt pr.1) :=
      ⟨fun a b c h1 h2 => le_trans h1 h2⟩
    exact List.sorted_insertionSort (fun a b : AugPod => a.distAt pr.1 ≤ b.distAt pr.1) _
  · rw [hval]
    unfold truncatePODList
    rw [List.length_take, hperm.length_eq]
  · intro hlen
    rw [hval]
    unfold truncatePODList
    rw [List.take_of_length_le (by rw [hperm.length_eq]; exact hlen)]
    exact hperm

/-- Witness for claim C1 at a concrete input: the single-entry results
object for lookup 70118 over two in-radius records at distances five and
three carries them reordered by ascending distance and untruncated. -/
theorem sortedPODLists_spec_witness :
    (("70118", [wPodB, wPodA]) ∈ sortedPODListsByLookupZip [wPodA, wPodB] ["70118"] 3) ∧
    ((∀ r ∈ [wPodB, wPodA], r.inRadiusAt "70118" = true ∧ r ∈ [wPodA, wPodB]) ∧
     List.Pairwise (fun a b : AugPod => a.distAt "70118" ≤ b.distAt "70118") [wPodB, wPodA] ∧
     ([wPodB, wPodA] : List AugPod).length =
       min 3 (getInRadiusPODs [wPodA, wPodB] "70118").length ∧
     ((getInRadiusPODs [wPodA, wPodB] "70118").length ≤ 3 →
       List.Perm [wPodB, wPodA] (getInRadiusPODs [wPodA, wPodB] "70118"))) :=
  ⟨by decide,
   sortedPODLists_spec [wPodA, wPodB] ["70118"] 3 ("70118", [wPodB, wPodA]) (by decide)⟩

/-- Claim C6: the meter-to-mile conversion sends exactly 1609.344 meters to
one mile, rendered as the About 1mi away suffix, and 1000 meters to 0.7
miles, rendered as the Under 1mi away suffix. -/
theorem convertMetersToMiles_roundtrip :
    convertMetersToMiles (1609344 / 1000) = 1 ∧
    convertMetersToMiles 1000 = 7 / 10 ∧
    podDistanceLine "70118" podAtOneMile = "\n\nPOD ONE\n1 Main St\nAbout 1mi away" ∧
    podDistanceLine "70118" podAtOneKm = "\n\nPOD ONE\n1 Main St\nUnder 1mi away" := by
  have hmile : convertMetersToMiles (1609344 / 1000) = 1 := by
    unfold convertMetersToMiles metersToMilesQ
    norm_num
  have hkm : convertMetersToMiles 1000 = 7 / 10 := by
    unfold convertMetersToMiles metersToMilesQ
    have h : (⌈(78125 : Rat) / 12573⌉ : Int) = 7 := by
      rw [Int.ceil_eq_iff]
      norm_num
    norm_num [h]
  refine ⟨hmile, hkm, ?_, ?_⟩
  · unfold podDistanceLine
    rw [show podAtOneMile.distAt "70118" = 1609344 / 1000 from rfl, hmile]
    norm_num [jsNumToString]
    rfl
  · unfold podDistanceLine
    rw [show podAtOneKm.distAt "70118" = 1000 from rfl, hkm]
    norm_num
    rfl

end SmsLocationBot
